import Mathlib

/-!
Shallow embedding of the Wiegand protocol state machine from
`src/Wiegand.cpp` / `src/Wiegand.h` (YetAnotherArduinoWiegandLibrary).

Machine integers are modelled as `Nat` with explicit truncation where the
C code can overflow or wrap:
* `uint8_t` values (the `state` flag byte, buffer bytes, bit counts) stay
  below 256 by construction or by explicit `% 256` / masking,
* `unsigned long` (`millis()`) subtraction wraps modulo `2 ^ 32`.

The byte buffer `uint8_t data[MAX_BYTES]` is a `List Nat` of length 8.
Callbacks are opaque in the C code; they are modelled as an emitted event
list, with one registration flag per callback slot (a dispatch is emitted
only when the corresponding function pointer is non-null, exactly as the
`if (func_data)` / `if (func_data_error)` / `if (func_state)` guards do).
-/

set_option autoImplicit false

/-- PIN_0 flag bit of the `state` byte (0x01). -/
def PIN_0 : Nat := 1

/-- PIN_1 flag bit of the `state` byte (0x02). -/
def PIN_1 : Nat := 2

/-- DEVICE_CONNECTED flag bit of the `state` byte (0x04). -/
def DEVICE_CONNECTED : Nat := 4

/-- DEVICE_INITIALIZED flag bit of the `state` byte (0x08). -/
def DEVICE_INITIALIZED : Nat := 8

/-- ERROR_TRANSMISSION flag bit of the `state` byte (0x10). -/
def ERROR_TRANSMISSION : Nat := 16

/-- ERROR_TOO_BIG flag bit of the `state` byte (0x20). -/
def ERROR_TOO_BIG : Nat := 32

/-- MASK_PINS = PIN_0 | PIN_1 (0x03). -/
def MASK_PINS : Nat := 3

/-- MASK_STATE (0x0F). -/
def MASK_STATE : Nat := 15

/-- MASK_ERRORS (0xF0). -/
def MASK_ERRORS : Nat := 240

/-- `Wiegand::LENGTH_ANY = 0xFF`, the auto-length sentinel. -/
def LENGTH_ANY : Nat := 255

/-- `Wiegand::TIMEOUT = 25` milliseconds. -/
def TIMEOUT : Nat := 25

/-- `Wiegand::MAX_BITS = 64`. -/
def MAX_BITS : Nat := 64

/-- `Wiegand::MAX_BYTES = (MAX_BITS + 7) / 8 = 8`. -/
def MAX_BYTES : Nat := 8

/-- Modulus of the 32-bit `unsigned long` returned by `millis()`. -/
def ULONG_MOD : Nat := 4294967296

/-- Reads byte `i` of the buffer (`data[i]`); out-of-range reads (which the
C code never performs on the paths modelled here) give 0. -/
def getByte (d : List Nat) (i : Nat) : Nat := d.getD i 0

/-- `writeBit(data, i, value)`: sets or clears bit `i` of the buffer, with
big-endian bit-in-byte order.  The C masks are `0x80 >> (i & 7)` for set and
`~(0x80 >> (i & 7))` (truncated to `uint8_t`, i.e. `0xFF ^ mask`) for clear. -/
def writeBit (d : List Nat) (i : Nat) (value : Bool) : List Nat :=
  if value then
    d.set (i / 8) (getByte d (i / 8) ||| (128 >>> (i % 8)))
  else
    d.set (i / 8) (getByte d (i / 8) &&& (255 ^^^ (128 >>> (i % 8))))

/-- `readBit(data, i)`: `data[i >> 3] & (0x80 >> (i & 7))` as a boolean. -/
def readBit (d : List Nat) (i : Nat) : Bool :=
  decide (getByte d (i / 8) &&& (128 >>> (i % 8)) ≠ 0)

/-- The copy loop of `align_data`
(`for (bit = 0; bit < aligned_bits; bit++) writeBit(aligned_data, bit + aligned_offset, readBit(data, bit + start))`),
run for the first `m` iterations. -/
def alignWriteLoop (src init : List Nat) (start off m : Nat) : List Nat :=
  (List.range m).foldl
    (fun acc bit => writeBit acc (bit + off) (readBit src (bit + start))) init

/-- The write-back loop of `align_data`
(`for (i = 0; i < aligned_bytes; i++) data[i] = aligned_data[i]`). -/
def alignCopyLoop (dst a : List Nat) (bytes : Nat) : List Nat :=
  (List.range bytes).foldl (fun acc i => acc.set i (getByte a i)) dst

/-- `align_data(data, start, end)`: copies the bit subrange `[start, end)`
right-aligned into the front of the buffer and returns the new buffer
together with the number of bits in the subrange (`end - start`, computed
in `uint8_t` arithmetic, hence the `% 256`).

The C function builds the result in a local `uint8_t aligned_data[MAX_BYTES]`
whose byte 0 is explicitly zeroed; every bit of the remaining bytes that is
copied back is written by the loop, so modelling the local array as all-zero
is observationally identical to the uninitialized C array. -/
def align_data (d : List Nat) (start fin : Nat) : List Nat × Nat :=
  let aligned_bits := (fin + 256 - start) % 256
  let aligned_bytes := (aligned_bits + 7) / 8
  let aligned_offset := 8 * aligned_bytes - aligned_bits
  let aligned := alignWriteLoop d (List.replicate MAX_BYTES 0) start aligned_offset aligned_bits
  (alignCopyLoop d aligned aligned_bytes, aligned_bits)

/-- `Wiegand::DataError`. -/
inductive DataError where
  | Communication
  | SizeTooBig
  | SizeUnexpected
  | DecodeFailed
  | VerificationFailed
deriving DecidableEq, Repr

/-- One observable callback dispatch. -/
inductive Event where
  /-- `func_data(buffer, bits, param)` — successful payload delivery. -/
  | data (buffer : List Nat) (bits : Nat)
  /-- `func_data_error(error, rawdata, bits, param)`. -/
  | error (err : DataError) (buffer : List Nat) (bits : Nat)
  /-- `func_state(plugged, param)` — connection state change. -/
  | state (plugged : Bool)
deriving DecidableEq, Repr

/-- The `Wiegand` object state.  `state` is the packed `uint8_t` flag byte;
the three `has_func_*` fields model whether each callback pointer is
non-null. -/
structure WiegandState where
  expected_bits : Nat
  decode_messages : Bool
  bits : Nat
  state : Nat
  timestamp : Nat
  data : List Nat
  has_func_data : Bool
  has_func_data_error : Bool
  has_func_state : Bool
deriving DecidableEq, Repr

/-- The error-dispatch pattern of `Wiegand::flushData()`: when an error
callback is registered, right-aligns the whole buffer in place
(`bits = align_data(data, 0, bits)`) and invokes the error callback with
the raw aligned buffer and its bit count. -/
def dispatchError (s : WiegandState) (err : DataError) : WiegandState × List Event :=
  if s.has_func_data_error then
    let a := align_data s.data 0 s.bits
    let s1 := { s with data := a.1, bits := a.2 }
    (s1, [Event.error err s1.data s1.bits])
  else (s, [])

/-- The success-dispatch pattern of `Wiegand::flushData()`: when a data
callback is registered, right-aligns the bit subrange `[start, fin)` in
place and invokes the data callback. -/
def dispatchData (s : WiegandState) (start fin : Nat) : WiegandState × List Event :=
  if s.has_func_data then
    let a := align_data s.data start fin
    let s1 := { s with data := a.1, bits := a.2 }
    (s1, [Event.data s1.data s1.bits])
  else (s, [])

/-- The per-length decoding stage of `Wiegand::flushData()` (reached when
no error flag is set, the size matches, and `decode_messages` holds). -/
def flushDataDecode (s : WiegandState) : WiegandState × List Event :=
  if s.bits = 4 then
    -- 4-bit keycode: no check necessary
    dispatchData s 0 s.bits
  else if s.bits = 8 then
    -- 8-bit keycode: `value = data[0] & 0xF`; the check is
    -- `data[0] == (value | ((0xF & ~value) << 4))`, where
    -- `0xF & ~value = 15 ^^^ value` because `value < 16`.
    let value := getByte s.data 0 &&& 15
    if getByte s.data 0 = (value ||| ((15 ^^^ value) <<< 4)) then
      if s.has_func_data then (s, [Event.data [value] 4]) else (s, [])
    else dispatchError s DataError.VerificationFailed
  else if s.bits = 26 ∨ s.bits = 34 then
    -- 26 or 34 bits: first and last bits are parity bits;
    -- `for (i = 0; i < (bits+1)/2; i++) left_parity ^= readBit(data, i)` and
    -- `for (i = bits/2; i < bits; i++) right_parity ^= readBit(data, i)`.
    let left_parity := (List.range ((s.bits + 1) / 2)).foldl
      (fun p i => xor p (readBit s.data i)) false
    let right_parity := (List.range' (s.bits / 2) (s.bits - s.bits / 2)).foldl
      (fun p i => xor p (readBit s.data i)) false
    if left_parity = false ∧ right_parity = true then
      dispatchData s 1 (s.bits - 1)
    else dispatchError s DataError.VerificationFailed
  else dispatchError s DataError.DecodeFailed

/-- `Wiegand::flushData()`: validates the current buffer and emits the
data / error dispatches.  Returns the mutated object state (the C code
reassigns `bits` and `data` in place via `align_data`) plus the dispatched
events.  In the pending-error branch the C code aligns the buffer and then
tests `ERROR_TOO_BIG` to pick the error kind; since `align_data` does not
touch the `state` byte this is the same as choosing the kind up front. -/
def flushData (s : WiegandState) : WiegandState × List Event :=
  if s.bits = 0 ∨ s.expected_bits = 0 then (s, [])
  else if s.state &&& MASK_ERRORS ≠ 0 then
    dispatchError s
      (if s.state &&& ERROR_TOO_BIG ≠ 0 then DataError.SizeTooBig
       else DataError.Communication)
  else if s.expected_bits ≠ s.bits ∧ s.expected_bits ≠ LENGTH_ANY then
    dispatchError s DataError.SizeUnexpected
  else if ¬ s.decode_messages then
    dispatchData s 0 s.bits
  else flushDataDecode s

/-- `Wiegand::reset()`: clears the bit count and the error flags, then sets
`ERROR_TRANSMISSION` again when the two data pins are not both high. -/
def reset (s : WiegandState) : WiegandState :=
  let s1 := { s with bits := 0, state := s.state &&& MASK_STATE }
  if s1.state &&& MASK_PINS ≠ MASK_PINS then
    { s1 with state := s1.state ||| ERROR_TRANSMISSION }
  else s1

/-- `millis() - timestamp` with 32-bit unsigned wraparound. -/
def elapsedMillis (now ts : Nat) : Nat :=
  (ULONG_MOD + now % ULONG_MOD - ts % ULONG_MOD) % ULONG_MOD

/-- `Wiegand::flush()`: when more than `TIMEOUT` ms have elapsed since the
last event, sends any pending message and resets. -/
def flush (s : WiegandState) (now : Nat) : WiegandState × List Event :=
  if elapsedMillis now s.timestamp > TIMEOUT then
    let r := flushData s
    (reset r.1, r.2)
  else (s, [])

/-- `Wiegand::flushNow()`: unconditional `flushData()` followed by `reset()`. -/
def flushNow (s : WiegandState) : WiegandState × List Event :=
  let r := flushData s
  (reset r.1, r.2)

/-- `Wiegand::addBitInternal(value)`: appends one bit (or sets the overflow
flag when the buffer is full), then runs the fixed-length fast path. -/
def addBitInternal (s : WiegandState) (value : Bool) : WiegandState × List Event :=
  let s1 :=
    if s.bits ≥ MAX_BITS then { s with state := s.state ||| ERROR_TOO_BIG }
    else { s with data := writeBit s.data s.bits value, bits := s.bits + 1 }
  if s1.expected_bits > 0 ∧ s1.bits = s1.expected_bits then
    let r := flushData s1
    (reset r.1, r.2)
  else (s1, [])

/-- The pin-edge dispatch section of `Wiegand::setPinState`, entered after
the stored level and timestamp have been updated (state `s1`).  Both pins
high: append a data bit (the bit value is `bool(pin)`) or mark the device
as newly connected; both pins low: force-flush and mark disconnected. -/
def setPinDispatch (s1 : WiegandState) (pin : Nat) : WiegandState × List Event :=
  if s1.state &&& MASK_PINS = MASK_PINS then
    if s1.state &&& DEVICE_CONNECTED ≠ 0 then
      addBitInternal s1 (decide (pin ≠ 0))
    else
      let s2 := { s1 with
        state := (s1.state &&& MASK_STATE) ||| DEVICE_CONNECTED ||| ERROR_TRANSMISSION }
      (s2, if s2.has_func_state then [Event.state true] else [])
  else if s1.state &&& MASK_PINS = 0 then
    if s1.state &&& DEVICE_CONNECTED ≠ 0 then
      let s2 := { s1 with state := s1.state ||| ERROR_TRANSMISSION }
      let r := flushNow s2
      let s3 := { r.1 with state := r.1.state &&& MASK_STATE &&& (255 ^^^ DEVICE_CONNECTED) }
      (s3, r.2 ++ if s3.has_func_state then [Event.state false] else [])
    else (s1, [])
  else (s1, [])

/-- `Wiegand::setPinState(pin, pin_state)` at wall-clock time `now`.
`pin` is the `uint8_t` argument: zero selects D0, any nonzero value selects
D1 (`pin ? PIN_1 : PIN_0`).  Runs the internal `flush()` first, ignores
repeated identical levels, then stores the new level and timestamp and
enters the dispatch section. -/
def setPinState (s : WiegandState) (pin : Nat) (pin_state : Bool) (now : Nat) :
    WiegandState × List Event :=
  let pin_mask := if pin = 0 then PIN_0 else PIN_1
  let f := flush s now
  let s0 := f.1
  let ev0 := f.2
  if decide (s0.state &&& pin_mask ≠ 0) = pin_state then (s0, ev0)
  else
    let s1 := { s0 with
      timestamp := now,
      state := if pin_state then s0.state ||| pin_mask
               else s0.state &&& (255 ^^^ pin_mask) }
    let r := setPinDispatch s1 pin
    (r.1, ev0 ++ r.2)

/-- `Wiegand::begin(expected_bits, decode_messages)` at time `now`; the
`expected_bits` argument is a `uint8_t`, hence the `% 256`. -/
def begin (s : WiegandState) (expected : Nat) (decode : Bool) (now : Nat) : WiegandState :=
  { s with
    expected_bits := expected % 256,
    decode_messages := decode,
    bits := 0,
    timestamp := now,
    state := (s.state &&& MASK_STATE) ||| DEVICE_INITIALIZED ||| ERROR_TRANSMISSION }

/-- `Wiegand::end()` at time `now` (`state &= MASK_STATE & ~DEVICE_INITIALIZED`). -/
def end_ (s : WiegandState) (now : Nat) : WiegandState :=
  { s with
    expected_bits := 0,
    bits := 0,
    timestamp := now,
    state := s.state &&& (MASK_STATE &&& (255 ^^^ DEVICE_INITIALIZED)) }

/-- One invocation of a public operation of the class. -/
inductive Op where
  | beginOp (expected : Nat) (decode : Bool) (now : Nat)
  | endOp (now : Nat)
  | resetOp
  | flushOp (now : Nat)
  | flushNowOp
  | setPinOp (pin : Nat) (lvl : Bool) (now : Nat)
deriving DecidableEq, Repr

/-- Applies one public operation (dropping the dispatched events). -/
def applyOp (s : WiegandState) (op : Op) : WiegandState :=
  match op with
  | .beginOp e dec now => begin s e dec now
  | .endOp now => end_ s now
  | .resetOp => reset s
  | .flushOp now => (flush s now).1
  | .flushNowOp => (flushNow s).1
  | .setPinOp p lvl now => (setPinState s p lvl now).1

/-- Runs a sequence of public operations. -/
def runOps (s : WiegandState) (ops : List Op) : WiegandState :=
  ops.foldl applyOp s

/-- The state of a freshly constructed (zero-initialized) object, with the
given callback registrations. -/
def initState (fd fe fs : Bool) : WiegandState :=
  { expected_bits := 0, decode_messages := false, bits := 0, state := 0,
    timestamp := 0, data := List.replicate MAX_BYTES 0,
    has_func_data := fd, has_func_data_error := fe, has_func_state := fs }

/-- A state is reachable when some sequence of public operations produces it
from a freshly constructed object. -/
def Reachable (s : WiegandState) : Prop :=
  ∃ fd fe fs ops, s = runOps (initState fd fe fs) ops

/-- XOR-fold of the buffer bits in `[lo, hi)`, stated the way the
specification describes the parity halves. -/
def specXorFold (d : List Nat) (lo hi : Nat) : Bool :=
  (List.range' lo (hi - lo)).foldl (fun p i => xor p (readBit d i)) false

/-- Recognizes connection state-change events. -/
def isStateEvent : Event → Bool
  | Event.state _ => true
  | _ => false

/-- Concrete device state awaiting the 26th bit of a fixed-length 26-bit
frame: 25 zero bits accumulated, reader connected, D0 high, D1 low, all
callbacks registered. -/
def sFast : WiegandState :=
  { expected_bits := 26, decode_messages := true, bits := 25, state := 13,
    timestamp := 0, data := [0, 0, 0, 0, 0, 0, 0, 0],
    has_func_data := true, has_func_data_error := true, has_func_state := true }

/-- Operations that initialize the device, connect a reader, leave D1 high
and D0 low, and then call `end()`. -/
def opsEnded : List Op :=
  [Op.beginOp 255 true 0, Op.setPinOp 0 true 0, Op.setPinOp 1 true 0,
   Op.setPinOp 0 false 0, Op.endOp 0]

/-- The state right after `end()` in the `opsEnded` history. -/
def sEnded : WiegandState := runOps (initState true true true) opsEnded

/-- Operations that initialize the device, connect a reader and then
unplug it (both pins low). -/
def opsDisc : List Op :=
  [Op.beginOp 255 true 0, Op.setPinOp 0 true 0, Op.setPinOp 1 true 0,
   Op.setPinOp 0 false 0, Op.setPinOp 1 false 0]

/-- The disconnected state reached by `opsDisc`. -/
def sDisc : WiegandState := runOps (initState true true true) opsDisc

/-- `n` complete D1 pulses (`setPinState(1, LOW); setPinState(1, HIGH)`),
each appending a 1 bit on a connected device. -/
def onePulses (n : Nat) : List Op :=
  (List.replicate n [Op.setPinOp 1 false 0, Op.setPinOp 1 true 0]).flatten

/-- Operations that connect a reader in auto-length mode and feed 64 one
bits, filling the buffer completely. -/
def opsFull : List Op :=
  [Op.beginOp 255 true 0, Op.setPinOp 0 true 0, Op.setPinOp 1 true 0] ++ onePulses 64

/-- The reachable state with a completely full buffer (`bits = 64`). -/
def sFull : WiegandState := runOps (initState true true true) opsFull

/-- A buffer whose first 4 bits are 1111 (byte 0 = 0xF0). -/
def bufNibbleHigh : List Nat := [240, 0, 0, 0, 0, 0, 0, 0]

/-- Concrete error-free 26-bit frame whose only set bit is the trailing
(right) parity bit, so the even/odd parity checks pass. -/
def sParity26 : WiegandState :=
  { expected_bits := 26, decode_messages := true, bits := 26, state := 15,
    timestamp := 0, data := [0, 0, 0, 64, 0, 0, 0, 0],
    has_func_data := true, has_func_data_error := true, has_func_state := true }

/-- Concrete error-free 8-bit frame `0xA5` (upper nibble 1010 is the
complement of lower nibble 0101). -/
def sNibble : WiegandState :=
  { expected_bits := 8, decode_messages := true, bits := 8, state := 15,
    timestamp := 0, data := [165, 0, 0, 0, 0, 0, 0, 0],
    has_func_data := true, has_func_data_error := true, has_func_state := true }

/-- Concrete 10-bit accumulation with the `ERROR_TOO_BIG` flag set. -/
def sErrored : WiegandState :=
  { expected_bits := 255, decode_messages := true, bits := 10, state := 47,
    timestamp := 0, data := [255, 192, 0, 0, 0, 0, 0, 0],
    has_func_data := true, has_func_data_error := true, has_func_state := true }

/-- Concrete connected idle state in auto-length mode (D0 high, D1 low,
empty buffer). -/
def sIdle : WiegandState :=
  { expected_bits := 255, decode_messages := true, bits := 0, state := 13,
    timestamp := 0, data := [0, 0, 0, 0, 0, 0, 0, 0],
    has_func_data := true, has_func_data_error := true, has_func_state := true }

/-- The state-machine invariant maintained by every public operation:
the `state` flag byte fits in a `uint8_t`, the bit count never exceeds
`MAX_BITS`, a fixed 64-bit format can never leave a full buffer pending
(the fast path fires first), and a disconnected device holds no bits. -/
def DevInv (s : WiegandState) : Prop :=
  s.state < 256 ∧ s.bits ≤ 64 ∧ (s.expected_bits = 64 → s.bits < 64) ∧
    (s.state &&& DEVICE_CONNECTED = 0 → s.bits = 0)

/-! ### Basic lemmas about the operations -/

/-- `reset` always zeroes the bit count. -/
theorem reset_bits (s : WiegandState) : (reset s).bits = 0 := by
  unfold reset
  dsimp only
  split <;> rfl

/-- `reset` changes nothing but `bits` and `state`. -/
theorem reset_eq (s : WiegandState) :
    ∃ st, reset s = { s with bits := 0, state := st } := by
  unfold reset
  dsimp only
  split
  · exact ⟨(s.state &&& MASK_STATE) ||| ERROR_TRANSMISSION, rfl⟩
  · exact ⟨s.state &&& MASK_STATE, rfl⟩

/-- `flushData` ignores empty messages. -/
theorem flushData_bits_zero (s : WiegandState) (h : s.bits = 0) :
    flushData s = (s, []) := by
  unfold flushData
  rw [if_pos (Or.inl h)]

/-- `flushData` ignores messages when `expected_bits = 0`. -/
theorem flushData_expected_zero (s : WiegandState) (h : s.expected_bits = 0) :
    flushData s = (s, []) := by
  unfold flushData
  rw [if_pos (Or.inr h)]

/-- The bit count returned by `align_data` is `fin - start` whenever the
subrange is well-formed (which it is at every call site). -/
theorem align_data_snd (d : List Nat) (start fin : Nat) (h1 : start ≤ fin)
    (h2 : fin - start < 256) : (align_data d start fin).2 = fin - start := by
  unfold align_data
  dsimp only
  omega

/-! ### Arithmetic facts about the packed `uint8_t` state byte -/

/-- Masking never enlarges a byte. -/
theorem and_lt_256 (x y : Nat) (h : x < 256) : x &&& y < 256 :=
  lt_of_le_of_lt (Nat.and_le_left) h

/-- Setting flag bits keeps a byte a byte. -/
theorem or_lt_256 (x y : Nat) (hx : x < 256) (hy : y < 256) : x ||| y < 256 := by
  have hx8 : x < 2 ^ 8 := by omega
  have hy8 : y < 2 ^ 8 := by omega
  have h := Nat.or_lt_two_pow hx8 hy8
  omega

set_option maxRecDepth 8000 in
/-- How the flag operations of the C code interact with the
`DEVICE_CONNECTED` bit (0x04) and with `MASK_STATE` (0x0F), checked for
every byte value. -/
theorem kit_conn : ∀ x < 256,
    (x ||| 1) &&& 4 = x &&& 4 ∧ (x ||| 2) &&& 4 = x &&& 4 ∧
    (x &&& (255 ^^^ 1)) &&& 4 = x &&& 4 ∧ (x &&& (255 ^^^ 2)) &&& 4 = x &&& 4 ∧
    (x ||| 32) &&& 4 = x &&& 4 ∧ ((x &&& 15) ||| 4 ||| 16) &&& 4 ≠ 0 ∧
    (x &&& 15) &&& 15 = x &&& 15 ∧ ((x &&& 15) ||| 16) &&& 15 = x &&& 15 := by
  decide

/-! ### Shape lemmas for the individual operations -/

/-- `reset` either sets the transmission-error flag (pins not both high)
or only clears the error flags. -/
theorem reset_cases (s : WiegandState) :
    reset s = { s with bits := 0, state := (s.state &&& MASK_STATE) ||| ERROR_TRANSMISSION } ∨
    reset s = { s with bits := 0, state := s.state &&& MASK_STATE } := by
  unfold reset
  dsimp only
  split_ifs
  · left; rfl
  · right; rfl

/-- `reset` never changes the configured frame length. -/
theorem reset_expected (s : WiegandState) : (reset s).expected_bits = s.expected_bits := by
  unfold reset
  dsimp only
  split <;> rfl

/-- The error-dispatch helper never touches the `state` byte. -/
theorem dispatchError_fst_state (s : WiegandState) (err : DataError) :
    (dispatchError s err).1.state = s.state := by
  unfold dispatchError
  dsimp only
  split <;> rfl

/-- The data-dispatch helper never touches the `state` byte. -/
theorem dispatchData_fst_state (s : WiegandState) (start fin : Nat) :
    (dispatchData s start fin).1.state = s.state := by
  unfold dispatchData
  dsimp only
  split <;> rfl

/-- The decoding stage never touches the `state` byte. -/
theorem flushDataDecode_fst_state (s : WiegandState) :
    (flushDataDecode s).1.state = s.state := by
  unfold flushDataDecode
  dsimp only
  split_ifs <;>
    first
      | rfl
      | apply dispatchError_fst_state
      | apply dispatchData_fst_state

/-- `flushData` never touches the `state` byte (it only realigns `data`
and updates `bits`). -/
theorem flushData_fst_state (s : WiegandState) : (flushData s).1.state = s.state := by
  unfold flushData
  split_ifs <;>
    first
      | rfl
      | apply dispatchError_fst_state
      | apply dispatchData_fst_state
      | apply flushDataDecode_fst_state

/-- `flushNow` always ends with an empty accumulator. -/
theorem flushNow_fst_bits (s : WiegandState) : (flushNow s).1.bits = 0 := reset_bits _

/-- `flush` is a no-op until more than `TIMEOUT` milliseconds have
elapsed. -/
theorem flush_not_elapsed (s : WiegandState) (now : Nat)
    (h : elapsedMillis now s.timestamp ≤ TIMEOUT) : flush s now = (s, []) := by
  unfold flush
  rw [if_neg (by omega)]

/-- With `expected_bits = 0` (after `end()`), `flush` dispatches nothing:
it either does nothing or merely resets. -/
theorem flush_expected_zero (s : WiegandState) (now : Nat) (h : s.expected_bits = 0) :
    flush s now = (s, []) ∨ flush s now = (reset s, []) := by
  unfold flush
  by_cases hc : elapsedMillis now s.timestamp > TIMEOUT
  · right; simp [hc, flushData_expected_zero s h]
  · left; simp [hc]

/-- With `expected_bits = 0` an appended bit is never dispatched (the
fixed-length fast path requires `expected_bits > 0`, and `flushData`
ignores the buffer). -/
theorem addBitInternal_snd_expected_zero (s : WiegandState) (v : Bool)
    (h : s.expected_bits = 0) : (addBitInternal s v).2 = [] := by
  by_cases hb : s.bits ≥ MAX_BITS <;> simp [addBitInternal, hb, h]

/-- With `expected_bits = 0`, `flushNow` dispatches nothing. -/
theorem flushNow_snd_expected_zero (s : WiegandState) (h : s.expected_bits = 0) :
    (flushNow s).2 = [] := by
  simp [flushNow, flushData_expected_zero s h]

/-- The fixed-length fast path of `addBitInternal`: as soon as the appended
bit makes the count reach `expected_bits`, the frame is completed
(`flushData`) and the accumulator reset, inside the same call. -/
theorem addBitInternal_fast (s : WiegandState) (v : Bool) (hlt : s.bits < MAX_BITS)
    (hfull : s.bits + 1 = s.expected_bits) :
    addBitInternal s v =
      (reset (flushData { s with data := writeBit s.data s.bits v, bits := s.bits + 1 }).1,
       (flushData { s with data := writeBit s.data s.bits v, bits := s.bits + 1 }).2) := by
  unfold addBitInternal
  dsimp only
  rw [if_neg (show ¬ s.bits ≥ MAX_BITS from by omega)]
  rw [if_pos (show s.expected_bits > 0 ∧ s.bits + 1 = s.expected_bits from ⟨by omega, hfull⟩)]

/-- On a connected device with both pins high, the dispatch section is
exactly a bit append. -/
theorem setPinDispatch_connected (s1 : WiegandState) (pin : Nat)
    (hboth : s1.state &&& MASK_PINS = MASK_PINS)
    (hconn : s1.state &&& DEVICE_CONNECTED ≠ 0) :
    setPinDispatch s1 pin = addBitInternal s1 (decide (pin ≠ 0)) := by
  unfold setPinDispatch
  rw [if_pos hboth, if_pos hconn]

/-- With `expected_bits = 0`, the dispatch section can only emit
connection state-change events. -/
theorem setPinDispatch_all_state_of_expected_zero (s1 : WiegandState) (pin : Nat)
    (h : s1.expected_bits = 0) : ((setPinDispatch s1 pin).2.all isStateEvent) = true := by
  unfold setPinDispatch
  dsimp only
  split_ifs <;>
    simp [addBitInternal_snd_expected_zero, flushNow_snd_expected_zero, isStateEvent, h]

/-! ### The invariant is preserved by every public operation -/

/-- `reset` reestablishes the invariant from the byte bound alone. -/
theorem inv_reset (s : WiegandState) (h : s.state < 256) : DevInv (reset s) := by
  rcases reset_cases s with hr | hr <;> rw [hr] <;> unfold DevInv <;>
    dsimp only [MASK_STATE, ERROR_TRANSMISSION]
  · exact ⟨or_lt_256 _ _ (and_lt_256 _ _ h) (by omega), by omega,
      fun _ => by omega, fun _ => rfl⟩
  · exact ⟨and_lt_256 _ _ h, by omega, fun _ => by omega, fun _ => rfl⟩

/-- `flushNow` preserves the invariant. -/
theorem inv_flushNow (s : WiegandState) (h : s.state < 256) : DevInv (flushNow s).1 := by
  unfold flushNow
  dsimp only
  exact inv_reset _ (by rw [flushData_fst_state]; exact h)

/-- `flush` preserves the invariant. -/
theorem inv_flush (s : WiegandState) (now : Nat) (h : DevInv s) : DevInv (flush s now).1 := by
  unfold flush
  split_ifs
  · exact inv_reset _ (by rw [flushData_fst_state]; exact h.1)
  · exact h

/-- `begin` preserves the invariant. -/
theorem inv_begin (s : WiegandState) (e : Nat) (dec : Bool) (now : Nat)
    (h : s.state < 256) : DevInv (begin s e dec now) := by
  unfold begin DevInv
  dsimp only [MASK_STATE, DEVICE_INITIALIZED, ERROR_TRANSMISSION]
  exact ⟨or_lt_256 _ _ (or_lt_256 _ _ (and_lt_256 _ _ h) (by omega)) (by omega),
    by omega, fun _ => by omega, fun _ => rfl⟩

/-- `end` preserves the invariant. -/
theorem inv_end (s : WiegandState) (now : Nat) (h : s.state < 256) : DevInv (end_ s now) := by
  unfold end_ DevInv
  dsimp only
  exact ⟨and_lt_256 _ _ h, by omega, fun _ => by omega, fun _ => rfl⟩

/-- Appending a bit on a connected device preserves the invariant. -/
theorem inv_addBit (s : WiegandState) (v : Bool)
    (h1 : s.state < 256) (h2 : s.bits ≤ 64)
    (h3 : s.expected_bits = 64 → s.bits < 64)
    (hconn : s.state &&& DEVICE_CONNECTED ≠ 0) : DevInv (addBitInternal s v).1 := by
  unfold addBitInternal
  dsimp only
  split_ifs with hb hfast hfast
  · exact inv_reset _ (by rw [flushData_fst_state]; exact or_lt_256 _ _ h1 (by decide))
  · unfold DevInv
    dsimp only [ERROR_TOO_BIG, DEVICE_CONNECTED] at *
    refine ⟨or_lt_256 _ _ h1 (by omega), h2, fun he => h3 he, fun hc => ?_⟩
    rw [(kit_conn s.state h1).2.2.2.2.1] at hc
    exact absurd hc hconn
  · exact inv_reset _ (by rw [flushData_fst_state]; exact h1)
  · unfold DevInv
    dsimp only [MAX_BITS, DEVICE_CONNECTED] at *
    refine ⟨h1, by omega, fun he => ?_, fun hc => absurd hc hconn⟩
    rcases Nat.lt_or_ge (s.bits + 1) 64 with hlt | hge
    · exact hlt
    · exact absurd ⟨by omega, by omega⟩ hfast

/-- The pin-edge dispatch section preserves the invariant. -/
theorem inv_setPinDispatch (s1 : WiegandState) (pin : Nat)
    (h1 : s1.state < 256) (h2 : s1.bits ≤ 64)
    (h3 : s1.expected_bits = 64 → s1.bits < 64)
    (h4 : s1.state &&& DEVICE_CONNECTED = 0 → s1.bits = 0) :
    DevInv (setPinDispatch s1 pin).1 := by
  unfold setPinDispatch
  dsimp only
  by_cases hpins : s1.state &&& MASK_PINS = MASK_PINS
  · rw [if_pos hpins]
    by_cases hconn : s1.state &&& DEVICE_CONNECTED ≠ 0
    · rw [if_pos hconn]
      exact inv_addBit _ _ h1 h2 h3 hconn
    · rw [if_neg hconn]
      dsimp only
      refine ⟨?_, h2, h3, fun hc => ?_⟩
      · exact or_lt_256 _ _ (or_lt_256 _ _ (and_lt_256 _ _ h1) (by decide)) (by decide)
      · exfalso
        dsimp only [DEVICE_CONNECTED, MASK_STATE, ERROR_TRANSMISSION] at hc
        exact (kit_conn _ h1).2.2.2.2.2.1 hc
  · rw [if_neg hpins]
    by_cases hzero : s1.state &&& MASK_PINS = 0
    · rw [if_pos hzero]
      by_cases hconn : s1.state &&& DEVICE_CONNECTED ≠ 0
      · rw [if_pos hconn]
        dsimp only
        have hfst : DevInv (flushNow { s1 with state := s1.state ||| ERROR_TRANSMISSION }).1 :=
          inv_flushNow _ (by dsimp only; exact or_lt_256 _ _ h1 (by decide))
        refine ⟨?_, ?_, fun _ => ?_, fun _ => ?_⟩ <;> dsimp only
        · exact and_lt_256 _ _ (and_lt_256 _ _ hfst.1)
        · rw [flushNow_fst_bits]; omega
        · rw [flushNow_fst_bits]; omega
        · exact flushNow_fst_bits _
      · rw [if_neg hconn]
        exact ⟨h1, h2, h3, h4⟩
    · rw [if_neg hzero]
      exact ⟨h1, h2, h3, h4⟩

/-- `setPinState` preserves the invariant. -/
theorem inv_setPin (s : WiegandState) (p : Nat) (lvl : Bool) (now : Nat)
    (h : DevInv s) : DevInv (setPinState s p lvl now).1 := by
  have h0 : DevInv (flush s now).1 := inv_flush s now h
  unfold setPinState
  dsimp only
  generalize hG : (flush s now).1 = s0 at h0
  obtain ⟨g1, g2, g3, g4⟩ := h0
  have hmask : (if p = 0 then PIN_0 else PIN_1) = 1 ∨ (if p = 0 then PIN_0 else PIN_1) = 2 := by
    split_ifs <;> [left; right] <;> rfl
  by_cases hchg : decide (s0.state &&& (if p = 0 then PIN_0 else PIN_1) ≠ 0) = lvl
  · rw [if_pos hchg]
    exact ⟨g1, g2, g3, g4⟩
  · rw [if_neg hchg]
    dsimp only
    apply inv_setPinDispatch <;> dsimp only
    · rcases hmask with hm | hm <;> rw [hm] <;> split_ifs
      · exact or_lt_256 _ _ g1 (by decide)
      · exact and_lt_256 _ _ g1
      · exact or_lt_256 _ _ g1 (by decide)
      · exact and_lt_256 _ _ g1
    · exact g2
    · exact g3
    · intro hc
      dsimp only [DEVICE_CONNECTED] at hc g4
      apply g4
      rcases kit_conn s0.state g1 with ⟨k1, k2, k3, k4, _⟩
      rcases hmask with hm | hm <;> rw [hm] at hc <;> split_ifs at hc
      · rw [← k1]; exact hc
      · rw [← k3]; exact hc
      · rw [← k2]; exact hc
      · rw [← k4]; exact hc

/-- Every public operation preserves the invariant. -/
theorem inv_applyOp (s : WiegandState) (op : Op) (h : DevInv s) : DevInv (applyOp s op) := by
  cases op with
  | beginOp e dec now => exact inv_begin s e dec now h.1
  | endOp now => exact inv_end s now h.1
  | resetOp => exact inv_reset s h.1
  | flushOp now => exact inv_flush s now h
  | flushNowOp => exact inv_flushNow s h.1
  | setPinOp p lvl now => exact inv_setPin s p lvl now h

/-- Every sequence of public operations preserves the invariant. -/
theorem inv_runOps (s : WiegandState) (ops : List Op) (h : DevInv s) :
    DevInv (runOps s ops) := by
  induction ops generalizing s with
  | nil => exact h
  | cons op rest ih => exact ih _ (inv_applyOp s op h)

/-- A freshly constructed object satisfies the invariant. -/
theorem inv_initState (fd fe fs : Bool) : DevInv (initState fd fe fs) := by
  unfold initState DevInv
  dsimp only
  exact ⟨by omega, by omega, fun _ => by omega, fun _ => rfl⟩

/-- Every reachable state satisfies the invariant. -/
theorem reachable_DevInv (s : WiegandState) (h : Reachable s) : DevInv s := by
  obtain ⟨fd, fe, fs, ops, rfl⟩ := h
  exact inv_runOps _ _ (inv_initState fd fe fs)

/-- Running a concatenated history runs the two parts in sequence. -/
theorem runOps_append (s : WiegandState) (l1 l2 : List Op) :
    runOps s (l1 ++ l2) = runOps (runOps s l1) l2 := by
  unfold runOps
  exact List.foldl_append _ _ _ _

set_option maxRecDepth 8000 in
/-- The 64-one-bit history fills the buffer completely: the resulting state
has `bits = 64` and all data bytes set, evaluated in two halves to keep the
kernel reduction shallow. -/
theorem sFull_eval : sFull =
    { expected_bits := 255, decode_messages := true, bits := 64, state := 31,
      timestamp := 0, data := [255, 255, 255, 255, 255, 255, 255, 255],
      has_func_data := true, has_func_data_error := true, has_func_state := true } := by
  have hsplit : opsFull =
      ([Op.beginOp 255 true 0, Op.setPinOp 0 true 0, Op.setPinOp 1 true 0] ++ onePulses 32)
        ++ onePulses 32 := by decide
  show runOps (initState true true true) opsFull = _
  rw [hsplit, runOps_append]
  have h1 : runOps (initState true true true)
      ([Op.beginOp 255 true 0, Op.setPinOp 0 true 0, Op.setPinOp 1 true 0] ++ onePulses 32) =
      { expected_bits := 255, decode_messages := true, bits := 32, state := 31,
        timestamp := 0, data := [255, 255, 255, 255, 0, 0, 0, 0],
        has_func_data := true, has_func_data_error := true, has_func_state := true } := by
    decide
  rw [h1]
  decide

/-! ### Claim theorems -/

/-- C2: with a fixed non-auto `expectedBits`, a `setPinState` call whose
pin edge appends the bit that makes `bitCount` reach `expectedBits`
performs frame completion (`flushData`) followed by `reset` inside that
same call — no timeout and no external `flush()` is involved (the internal
timeout check is idle because no time has elapsed), and afterwards the
accumulator is empty. -/
theorem setPinState_fixed_length_fast_path (s : WiegandState) (pin : Nat) (now : Nat)
    (h256 : s.state < 256)
    (hel : elapsedMillis now s.timestamp ≤ TIMEOUT)
    (hlow : s.state &&& (if pin = 0 then PIN_0 else PIN_1) = 0)
    (hboth : (s.state ||| (if pin = 0 then PIN_0 else PIN_1)) &&& MASK_PINS = MASK_PINS)
    (hconn : s.state &&& DEVICE_CONNECTED ≠ 0)
    (hlt : s.bits < MAX_BITS)
    (hfull : s.bits + 1 = s.expected_bits) :
    setPinState s pin true now =
      (reset (flushData { s with
          timestamp := now,
          state := s.state ||| (if pin = 0 then PIN_0 else PIN_1),
          data := writeBit s.data s.bits (decide (pin ≠ 0)),
          bits := s.bits + 1 }).1,
        (flushData { s with
          timestamp := now,
          state := s.state ||| (if pin = 0 then PIN_0 else PIN_1),
          data := writeBit s.data s.bits (decide (pin ≠ 0)),
          bits := s.bits + 1 }).2) ∧
    (setPinState s pin true now).1.bits = 0 := by
  have hconn1 : (s.state ||| (if pin = 0 then PIN_0 else PIN_1)) &&& DEVICE_CONNECTED ≠ 0 := by
    rcases kit_conn s.state h256 with ⟨k1, k2, _⟩
    dsimp only [DEVICE_CONNECTED] at *
    by_cases hp : pin = 0 <;> simp only [hp, if_true, if_false, PIN_0, PIN_1] <;>
      [rw [k1]; rw [k2]] <;> exact hconn
  have key : setPinState s pin true now =
      (reset (flushData { s with
          timestamp := now,
          state := s.state ||| (if pin = 0 then PIN_0 else PIN_1),
          data := writeBit s.data s.bits (decide (pin ≠ 0)),
          bits := s.bits + 1 }).1,
        (flushData { s with
          timestamp := now,
          state := s.state ||| (if pin = 0 then PIN_0 else PIN_1),
          data := writeBit s.data s.bits (decide (pin ≠ 0)),
          bits := s.bits + 1 }).2) := by
    unfold setPinState
    rw [flush_not_elapsed s now hel]
    dsimp only
    rw [if_neg (show ¬ (decide (s.state &&& (if pin = 0 then PIN_0 else PIN_1) ≠ 0) = true)
      from by simp [hlow])]
    simp only [if_true]
    rw [setPinDispatch_connected _ _ (by dsimp only; exact hboth) (by dsimp only; exact hconn1)]
    rw [addBitInternal_fast _ _ (by dsimp only; omega) (by dsimp only; omega)]
    simp
  exact ⟨key, by rw [key]; exact reset_bits _⟩

/-- C2 witness: on the concrete state `sFast` (fixed `expectedBits = 26`,
25 valid bits accumulated), the 26th bit fed through `setPinState(1, HIGH)`
dispatches the decoded 24-bit payload synchronously and resets the count. -/
theorem setPinState_fixed_length_fast_path_witness :
    (setPinState sFast 1 true 0 =
      (reset (flushData { sFast with
          timestamp := 0,
          state := sFast.state ||| (if 1 = 0 then PIN_0 else PIN_1),
          data := writeBit sFast.data sFast.bits (decide ((1 : Nat) ≠ 0)),
          bits := sFast.bits + 1 }).1,
        (flushData { sFast with
          timestamp := 0,
          state := sFast.state ||| (if 1 = 0 then PIN_0 else PIN_1),
          data := writeBit sFast.data sFast.bits (decide ((1 : Nat) ≠ 0)),
          bits := sFast.bits + 1 }).2) ∧
      (setPinState sFast 1 true 0).1.bits = 0) ∧
    (setPinState sFast 1 true 0).2 = [Event.data [0, 0, 0, 64, 0, 0, 0, 0] 24] :=
  ⟨setPinState_fixed_length_fast_path sFast 1 0 (by decide) (by decide) (by decide)
      (by decide) (by decide) (by decide) (by decide),
    by decide⟩

/-- C3: when a frame completes with a nonzero bit count, a configured
frame length, and an error flag pending, `flushData` invokes only the
error callback (when registered) with the right-aligned raw buffer and
its bit count, classified `SizeTooBig` when the overflow flag is set and
`Communication` otherwise; the data callback is never invoked.  No
hypothesis constrains the size match or `decode_messages`: the error-flag
check precedes both. -/
theorem flushData_error_flags_precedence (s : WiegandState)
    (hb : s.bits ≠ 0) (hb64 : s.bits ≤ 64) (he : s.expected_bits ≠ 0)
    (herr : s.state &&& MASK_ERRORS ≠ 0) :
    (flushData s).2 =
      if s.has_func_data_error then
        [Event.error
          (if s.state &&& ERROR_TOO_BIG ≠ 0 then DataError.SizeTooBig
           else DataError.Communication)
          (align_data s.data 0 s.bits).1 s.bits]
      else [] := by
  have hsnd : (align_data s.data 0 s.bits).2 = s.bits := by
    have h := align_data_snd s.data 0 s.bits (Nat.zero_le _) (by omega)
    simpa using h
  unfold flushData
  rw [if_neg (by simp [hb, he]), if_pos herr]
  unfold dispatchError
  dsimp only
  by_cases hf : s.has_func_data_error <;> simp [hf, hsnd]

/-- C3 witness: the concrete overflowed 10-bit accumulation `sErrored`
dispatches exactly one `SizeTooBig` error with the aligned raw buffer. -/
theorem flushData_error_flags_precedence_witness :
    (flushData sErrored).2 =
      if sErrored.has_func_data_error then
        [Event.error
          (if sErrored.state &&& ERROR_TOO_BIG ≠ 0 then DataError.SizeTooBig
           else DataError.Communication)
          (align_data sErrored.data 0 sErrored.bits).1 sErrored.bits]
      else [] :=
  flushData_error_flags_precedence sErrored (by decide) (by decide) (by decide) (by decide)

/-- C4: in every reachable state the bit count is at most `MAX_BITS`, and
appending a bit to a full buffer only sets the `Overflow` flag: the buffer
bytes, the bit count and everything else are unchanged, the discarded bit
is never written, and nothing is dispatched. -/
theorem reachable_bits_le_max_and_overflow_discard (s : WiegandState) (h : Reachable s) :
    s.bits ≤ MAX_BITS ∧
    (s.bits = MAX_BITS → ∀ v,
      addBitInternal s v = ({ s with state := s.state ||| ERROR_TOO_BIG }, [])) := by
  obtain ⟨g1, g2, g3, g4⟩ := reachable_DevInv s h
  refine ⟨by dsimp only [MAX_BITS]; omega, fun hfull v => ?_⟩
  dsimp only [MAX_BITS] at hfull
  unfold addBitInternal
  dsimp only
  rw [if_pos (show s.bits ≥ MAX_BITS from by dsimp only [MAX_BITS]; omega)]
  rw [if_neg (show ¬ (s.expected_bits > 0 ∧ s.bits = s.expected_bits) from by
    rintro ⟨hp, heq⟩
    have he64 : s.expected_bits = 64 := by omega
    have := g3 he64
    omega)]

/-- C4 witness: the reachable state `sFull` (a begin, a connect, then 64
one-bit pulses) has a full 64-bit buffer, and a further appended bit is
discarded with only the overflow flag set. -/
theorem reachable_bits_le_max_and_overflow_discard_witness :
    sFull.bits = MAX_BITS ∧
    (sFull.bits ≤ MAX_BITS ∧
      (sFull.bits = MAX_BITS → ∀ v,
        addBitInternal sFull v = ({ sFull with state := sFull.state ||| ERROR_TOO_BIG }, []))) :=
  ⟨by rw [sFull_eval]; rfl,
    reachable_bits_le_max_and_overflow_discard sFull ⟨true, true, true, opsFull, rfl⟩⟩

/-- C5: once the accumulator is empty (as it is right after any frame
completion, which always ends in `reset`), further `flush()` or
`flushNow()` calls dispatch nothing — no data callback and no error
callback — and leave the accumulator empty, so a frame is never delivered
twice. -/
theorem flush_after_completion_no_dispatch (s : WiegandState) (now : Nat)
    (h : s.bits = 0) :
    (flush s now).2 = [] ∧ (flushNow s).2 = [] ∧
    (flush s now).1.bits = 0 ∧ (flushNow s).1.bits = 0 := by
  have hfd := flushData_bits_zero s h
  unfold flush flushNow
  by_cases hc : elapsedMillis now s.timestamp > TIMEOUT <;>
    simp [hc, hfd, reset_bits, h]

/-- C5 witness: after the completed frame of `sFast` (which ends reset),
repeated `flush`/`flushNow` dispatch nothing. -/
theorem flush_after_completion_no_dispatch_witness :
    (flush (setPinState sFast 1 true 0).1 1000).2 = [] ∧
    (flushNow (setPinState sFast 1 true 0).1).2 = [] ∧
    (flush (setPinState sFast 1 true 0).1 1000).1.bits = 0 ∧
    (flushNow (setPinState sFast 1 true 0).1).1.bits = 0 :=
  flush_after_completion_no_dispatch (setPinState sFast 1 true 0).1 1000 (by decide)

/-- C7 counterexample: `sEnded` is a state reached right after `end()`
(via `opsEnded`), yet `setPinState` is not ignored there: a D0 rising edge
appends a bit to the buffer and changes the stored state, and dropping D1
emits a state-change notification. -/
theorem setPinState_after_end_not_ignored_cex :
    Reachable sEnded ∧
    (setPinState sEnded 0 true 0).1.bits = 1 ∧
    (setPinState sEnded 0 true 0).1 ≠ sEnded ∧
    (setPinState sEnded 1 false 0).2 = [Event.state false] :=
  ⟨⟨true, true, true, opsEnded, rfl⟩, by decide, by decide, by decide⟩

/-- C7 (amended): after `end()` (`expected_bits = 0`) and until the next
`begin()`, `setPinState` never dispatches a data or error callback — every
emitted event is a connection state-change — but it is not a no-op: pin
levels and the timestamp are still tracked, bits may still be appended,
and state-change notifications may still fire. -/
theorem setPinState_after_end_no_data_dispatch (s : WiegandState) (p : Nat)
    (lvl : Bool) (now : Nat) (h : s.expected_bits = 0) :
    ((setPinState s p lvl now).2.all isStateEvent) = true := by
  rcases flush_expected_zero s now h with hf | hf <;>
  · unfold setPinState
    rw [hf]
    dsimp only
    by_cases hchg : decide ((flush s now).1.state &&& (if p = 0 then PIN_0 else PIN_1) ≠ 0) = lvl
    all_goals rw [hf] at hchg; dsimp only at hchg
    · rw [if_pos hchg]; rfl
    · rw [if_neg hchg]
      dsimp only
      rw [List.nil_append]
      apply setPinDispatch_all_state_of_expected_zero
      dsimp only
      simp [h, reset_expected]

/-- C7 (amended) witness: the disconnect edge on the post-`end()` state
`sEnded` emits only state-change events. -/
theorem setPinState_after_end_no_data_dispatch_witness :
    ((setPinState sEnded 1 false 0).2.all isStateEvent) = true :=
  setPinState_after_end_no_data_dispatch sEnded 1 false 0 (by decide)

/-- C8 counterexample: `sDisc` is a reachable disconnected state, and a
late `flush()` on it is not a no-op: it dispatches nothing, but `reset`
sets the `TransmissionError` flag because the pins are not both high, so
the stored state changes. -/
theorem flush_disconnected_not_noop_cex :
    Reachable sDisc ∧ sDisc.state &&& DEVICE_CONNECTED = 0 ∧
    (flush sDisc 100).1 ≠ sDisc ∧ (flush sDisc 100).2 = [] :=
  ⟨⟨true, true, true, opsDisc, rfl⟩, by decide, by decide, by decide⟩

/-- C8 (amended): on every reachable disconnected state, `flush()` invokes
no callback and leaves the bit count, the pin levels, the connection and
initialization flags, and the timestamp unchanged; only the error flags of
the state byte may change (via `reset`). -/
theorem flush_disconnected_no_dispatch (s : WiegandState) (now : Nat)
    (h : Reachable s) (hc : s.state &&& DEVICE_CONNECTED = 0) :
    (flush s now).2 = [] ∧
    ∃ st, (flush s now).1 = { s with state := st } ∧
      st &&& MASK_STATE = s.state &&& MASK_STATE := by
  obtain ⟨g1, g2, g3, g4⟩ := reachable_DevInv s h
  have hb : s.bits = 0 := g4 hc
  have hfd : flushData s = (s, []) := flushData_bits_zero s hb
  unfold flush
  split_ifs with ht
  · rw [hfd]
    dsimp only
    rcases kit_conn s.state g1 with ⟨_, _, _, _, _, _, k7, k8⟩
    rcases reset_cases s with hr | hr <;> rw [hr]
    · refine ⟨rfl, (s.state &&& MASK_STATE) ||| ERROR_TRANSMISSION, ?_, ?_⟩
      · rw [hb]
      · dsimp only [MASK_STATE, ERROR_TRANSMISSION]
        exact k8
    · refine ⟨rfl, s.state &&& MASK_STATE, ?_, ?_⟩
      · rw [hb]
      · dsimp only [MASK_STATE]
        exact k7
  · exact ⟨rfl, s.state, rfl, rfl⟩

/-- C8 (amended) witness: a late `flush()` on the reachable disconnected
state `sDisc` dispatches nothing and only touches the error flags. -/
theorem flush_disconnected_no_dispatch_witness :
    (flush sDisc 100).2 = [] ∧
    ∃ st, (flush sDisc 100).1 = { sDisc with state := st } ∧
      st &&& MASK_STATE = sDisc.state &&& MASK_STATE :=
  flush_disconnected_no_dispatch sDisc 100 ⟨true, true, true, opsDisc, rfl⟩ (by decide)

/-- C10: `setPinState` treats every nonzero pin index exactly like pin 1
(the D1 line): the stored level, the timestamp, the dispatch section and
the appended bit value (`bool(pin)`, i.e. a 1 bit) are all identical. -/
theorem setPinState_nonzero_pin_is_d1 (s : WiegandState) (p : Nat) (lvl : Bool)
    (now : Nat) (hp : p ≠ 0) :
    setPinState s p lvl now = setPinState s 1 lvl now := by
  have hd : ∀ s1 : WiegandState, setPinDispatch s1 p = setPinDispatch s1 1 := by
    intro s1
    simp [setPinDispatch, hp]
  simp only [setPinState, hp, if_neg, hd]
  simp [hp]

/-- C10 witness: on the connected idle state `sIdle` (D1 low), a rising
edge reported for the out-of-range pin index 2 behaves exactly like pin 1
and appends a 1 bit. -/
theorem setPinState_nonzero_pin_is_d1_witness :
    (2 : Nat) ≠ 0 ∧
    setPinState sIdle 2 true 0 = setPinState sIdle 1 true 0 ∧
    (setPinState sIdle 2 true 0).1.bits = 1 ∧
    readBit (setPinState sIdle 2 true 0).1.data 0 = true :=
  ⟨by decide, setPinState_nonzero_pin_is_d1 sIdle 2 true 0 (by decide),
    by decide, by decide⟩

/-! ### Bit-level lemmas for the buffer primitives -/

/-- Reading an index just set. -/
theorem getByte_set_self (l : List Nat) (i a : Nat) (h : i < l.length) :
    getByte (l.set i a) i = a := by
  unfold getByte
  rw [List.getD_eq_getElem?_getD, List.getElem?_set_self h]
  rfl

/-- Reading another index after a set. -/
theorem getByte_set_ne (l : List Nat) (i j a : Nat) (h : i ≠ j) :
    getByte (l.set i a) j = getByte l j := by
  unfold getByte
  rw [List.getD_eq_getElem?_getD, List.getElem?_set_ne h, ← List.getD_eq_getElem?_getD]

/-- `writeBit` keeps the buffer length. -/
theorem writeBit_length (d : List Nat) (i : Nat) (v : Bool) :
    (writeBit d i v).length = d.length := by
  unfold writeBit
  split <;> exact List.length_set _ _ _

/-- The C mask `0x80 >> r` is the power `2 ^ (7 - r)`. -/
theorem shift_mask (r : Nat) (hr : r < 8) : (128 : Nat) >>> r = 2 ^ (7 - r) := by
  have h8 : r = 0 ∨ r = 1 ∨ r = 2 ∨ r = 3 ∨ r = 4 ∨ r = 5 ∨ r = 6 ∨ r = 7 := by omega
  rcases h8 with h | h | h | h | h | h | h | h <;> subst h <;> rfl

/-- Every low bit of `0xFF` is set. -/
theorem testBit_255 (k : Nat) (hk : k < 8) : (255 : Nat).testBit k = true := by
  have h8 : k = 0 ∨ k = 1 ∨ k = 2 ∨ k = 3 ∨ k = 4 ∨ k = 5 ∨ k = 6 ∨ k = 7 := by omega
  rcases h8 with h | h | h | h | h | h | h | h <;> subst h <;> rfl

/-- `readBit` is `testBit` of the addressed byte at the mirrored (big-endian)
position. -/
theorem readBit_eq_testBit (d : List Nat) (i : Nat) :
    readBit d i = (getByte d (i / 8)).testBit (7 - i % 8) := by
  unfold readBit
  rw [shift_mask (i % 8) (Nat.mod_lt _ (by omega))]
  rw [Nat.and_two_pow]
  cases hb : (getByte d (i / 8)).testBit (7 - i % 8) <;> simp [hb]

/-- `readBit` only looks at the addressed byte. -/
theorem readBit_congr (x y : List Nat) (p : Nat)
    (h : getByte x (p / 8) = getByte y (p / 8)) : readBit x p = readBit y p := by
  unfold readBit
  rw [h]

/-- Bytes of the zeroed local array. -/
theorem getByte_replicate_zero (k : Nat) : getByte (List.replicate 8 0) k = 0 := by
  unfold getByte
  rw [List.getD_eq_getElem?_getD, List.getElem?_replicate]
  split <;> rfl

/-- Bits of the zeroed local array. -/
theorem readBit_replicate_zero (p : Nat) : readBit (List.replicate 8 0) p = false := by
  rw [readBit_eq_testBit, getByte_replicate_zero]
  exact Nat.zero_testBit _

/-- Reading back the bit just written. -/
theorem readBit_writeBit_self (d : List Nat) (i : Nat) (v : Bool)
    (hd : d.length = 8) (hi : i < 64) :
    readBit (writeBit d i v) i = v := by
  have hdiv : i / 8 < d.length := by omega
  have hr : i % 8 < 8 := Nat.mod_lt _ (by omega)
  have hk : 7 - i % 8 < 8 := by omega
  unfold writeBit
  rw [shift_mask (i % 8) hr]
  cases v
  · rw [if_neg (by simp)]
    rw [readBit_eq_testBit, getByte_set_self _ _ _ hdiv]
    rw [Nat.testBit_land, Nat.testBit_xor]
    rw [testBit_255 _ hk, Nat.testBit_two_pow_self]
    simp
  · rw [if_pos rfl]
    rw [readBit_eq_testBit, getByte_set_self _ _ _ hdiv]
    rw [Nat.testBit_lor, Nat.testBit_two_pow_self]
    simp

/-- Writing one bit leaves every other bit unchanged. -/
theorem readBit_writeBit_ne (d : List Nat) (i j : Nat) (v : Bool)
    (hd : d.length = 8) (hi : i < 64) (hj : j < 64) (hne : i ≠ j) :
    readBit (writeBit d i v) j = readBit d j := by
  have hr : i % 8 < 8 := Nat.mod_lt _ (by omega)
  by_cases hb : i / 8 = j / 8
  · have hkne : (7 - i % 8) ≠ (7 - j % 8) := by omega
    have hdiv : i / 8 < d.length := by omega
    unfold writeBit
    rw [shift_mask (i % 8) hr]
    cases v
    · rw [if_neg (by simp)]
      rw [readBit_eq_testBit, ← hb, getByte_set_self _ _ _ hdiv]
      rw [Nat.testBit_land, Nat.testBit_xor]
      rw [testBit_255 _ (by omega), Nat.testBit_two_pow_of_ne hkne]
      rw [readBit_eq_testBit, ← hb]
      simp
    · rw [if_pos rfl]
      rw [readBit_eq_testBit, ← hb, getByte_set_self _ _ _ hdiv]
      rw [Nat.testBit_lor, Nat.testBit_two_pow_of_ne hkne]
      rw [readBit_eq_testBit, ← hb]
      simp
  · unfold writeBit
    cases v <;> [rw [if_neg (by simp)]; rw [if_pos rfl]] <;>
      exact readBit_congr _ _ _ (getByte_set_ne _ _ _ _ hb)

/-- `writeBit` keeps every byte below 256. -/
theorem writeBit_getByte_lt (d : List Nat) (i : Nat) (v : Bool) (k : Nat)
    (hd : d.length = 8) (hi : i < 64) (h : getByte d k < 256) :
    getByte (writeBit d i v) k < 256 := by
  have hr : i % 8 < 8 := Nat.mod_lt _ (by omega)
  have hm : (128 : Nat) >>> (i % 8) ≤ 128 := by
    rw [shift_mask (i % 8) hr]
    calc 2 ^ (7 - i % 8) ≤ 2 ^ 7 := Nat.pow_le_pow_right (by omega) (by omega)
    _ = 128 := rfl
  by_cases hk : i / 8 = k
  · subst hk
    have hdiv : i / 8 < d.length := by omega
    unfold writeBit
    cases v
    · rw [if_neg (by simp), getByte_set_self _ _ _ hdiv]
      exact and_lt_256 _ _ h
    · rw [if_pos rfl, getByte_set_self _ _ _ hdiv]
      exact or_lt_256 _ _ h (by omega)
  · unfold writeBit
    cases v <;> [rw [if_neg (by simp)]; rw [if_pos rfl]] <;>
      rw [getByte_set_ne _ _ _ _ hk] <;> exact h

/-! ### Behaviour of the two loops of `align_data` -/

/-- One more iteration of the bit-copy loop. -/
theorem alignWriteLoop_succ (src init : List Nat) (start off m : Nat) :
    alignWriteLoop src init start off (m + 1) =
      writeBit (alignWriteLoop src init start off m) (m + off) (readBit src (m + start)) := by
  unfold alignWriteLoop
  rw [List.range_succ, List.foldl_append]
  rfl

/-- After `m` iterations of the bit-copy loop: length preserved, bits
`[off, off + m)` hold the source bits `[start, start + m)`, all other
positions are untouched, and every byte stays below 256. -/
theorem alignWriteLoop_spec (src init : List Nat) (start off : Nat)
    (hinit : init.length = 8) (m : Nat) (hm : off + m ≤ 64) :
    (alignWriteLoop src init start off m).length = 8 ∧
    (∀ j, j < m →
      readBit (alignWriteLoop src init start off m) (off + j) = readBit src (start + j)) ∧
    (∀ p, p < 64 → (p < off ∨ off + m ≤ p) →
      readBit (alignWriteLoop src init start off m) p = readBit init p) ∧
    (∀ k, getByte init k < 256 → getByte (alignWriteLoop src init start off m) k < 256) := by
  induction m with
  | zero =>
    refine ⟨hinit, fun j hj => absurd hj (by omega), fun p _ _ => rfl, fun k hk => hk⟩
  | succ m ih =>
    obtain ⟨L, R, U, B⟩ := ih (by omega)
    refine ⟨?_, ?_, ?_, ?_⟩
    · rw [alignWriteLoop_succ, writeBit_length]
      exact L
    · intro j hj
      rw [alignWriteLoop_succ]
      rcases Nat.lt_or_ge j m with hjm | hjm
      · rw [readBit_writeBit_ne _ _ _ _ L (by omega) (by omega) (by omega)]
        exact R j hjm
      · have hj' : j = m := by omega
        subst hj'
        rw [show off + j = j + off from by omega]
        rw [readBit_writeBit_self _ _ _ L (by omega)]
        rw [show start + j = j + start from by omega]
    · intro p hp hcase
      rw [alignWriteLoop_succ]
      rw [readBit_writeBit_ne _ _ _ _ L (by omega) (by omega) (by omega)]
      exact U p hp (by omega)
    · intro k hk
      rw [alignWriteLoop_succ]
      exact writeBit_getByte_lt _ _ _ _ L (by omega) (B k hk)

/-- One more iteration of the write-back loop. -/
theorem alignCopyLoop_succ (dst a : List Nat) (bytes : Nat) :
    alignCopyLoop dst a (bytes + 1) =
      (alignCopyLoop dst a bytes).set bytes (getByte a bytes) := by
  unfold alignCopyLoop
  rw [List.range_succ, List.foldl_append]
  rfl

/-- The write-back loop copies the first `bytes` bytes of the local array
and leaves the rest of the destination alone. -/
theorem alignCopyLoop_spec (dst a : List Nat) (hd : dst.length = 8) (bytes : Nat)
    (hb : bytes ≤ 8) :
    (alignCopyLoop dst a bytes).length = 8 ∧
    (∀ k, k < bytes → getByte (alignCopyLoop dst a bytes) k = getByte a k) ∧
    (∀ k, bytes ≤ k → getByte (alignCopyLoop dst a bytes) k = getByte dst k) := by
  induction bytes with
  | zero => exact ⟨hd, fun k hk => absurd hk (by omega), fun k _ => rfl⟩
  | succ bytes ih =>
    obtain ⟨L, E, U⟩ := ih (by omega)
    refine ⟨?_, ?_, ?_⟩
    · rw [alignCopyLoop_succ, List.length_set]
      exact L
    · intro k hk
      rw [alignCopyLoop_succ]
      rcases Nat.lt_or_ge k bytes with hkb | hkb
      · rw [getByte_set_ne _ _ _ _ (by omega)]
        exact E k hkb
      · have hk' : k = bytes := by omega
        subst hk'
        exact getByte_set_self _ _ _ (by omega)
    · intro k hk
      rw [alignCopyLoop_succ, getByte_set_ne _ _ _ _ (by omega)]
      exact U k (by omega)

/-- `align_data` written without the `uint8_t` wraparound, valid whenever
the subrange is well-formed. -/
theorem align_data_eq (d : List Nat) (start fin : Nat) (h1 : start ≤ fin)
    (h2 : fin - start < 256) :
    align_data d start fin =
      (alignCopyLoop d
        (alignWriteLoop d (List.replicate MAX_BYTES 0) start
          (8 * ((fin - start + 7) / 8) - (fin - start)) (fin - start))
        ((fin - start + 7) / 8),
       fin - start) := by
  unfold align_data
  dsimp only
  rw [show (fin + 256 - start) % 256 = fin - start from by omega]

/-- Full characterization of `align_data` on a well-formed subrange of at
most 64 bits: the returned count is `fin - start`, the buffer keeps length
8, bit `offset + j` of the result is source bit `start + j`, the padding
bits below `offset` are zero, the bytes beyond the written span are the
original destination bytes, and each written byte is a valid `uint8_t`. -/
theorem align_data_spec (d : List Nat) (start fin : Nat) (hd : d.length = 8)
    (h1 : start ≤ fin) (h2 : fin - start ≤ 64) :
    (align_data d start fin).2 = fin - start ∧
    (align_data d start fin).1.length = 8 ∧
    (∀ j, j < fin - start →
      readBit (align_data d start fin).1 (8 * ((fin - start + 7) / 8) - (fin - start) + j) =
        readBit d (start + j)) ∧
    (∀ p, p < 8 * ((fin - start + 7) / 8) - (fin - start) →
      readBit (align_data d start fin).1 p = false) ∧
    (∀ k, (fin - start + 7) / 8 ≤ k →
      getByte (align_data d start fin).1 k = getByte d k) ∧
    (∀ k, k < (fin - start + 7) / 8 → getByte (align_data d start fin).1 k < 256) := by
  have hn : fin - start < 256 := by omega
  rw [align_data_eq d start fin h1 hn]
  dsimp only
  set n := fin - start with hn'
  set bytes := (n + 7) / 8 with hb'
  set off := 8 * bytes - n with ho'
  have hbytes : bytes ≤ 8 := by omega
  have hoff : off + n ≤ 64 := by omega
  obtain ⟨WL, WR, WU, WB⟩ :=
    alignWriteLoop_spec d (List.replicate MAX_BYTES 0) start off
      (by simp [MAX_BYTES]) n hoff
  obtain ⟨CL, CE, CU⟩ :=
    alignCopyLoop_spec d (alignWriteLoop d (List.replicate MAX_BYTES 0) start off n)
      hd bytes hbytes
  have hread : ∀ p, p < 8 * bytes →
      readBit (alignCopyLoop d (alignWriteLoop d (List.replicate MAX_BYTES 0) start off n) bytes) p =
        readBit (alignWriteLoop d (List.replicate MAX_BYTES 0) start off n) p := by
    intro p hp
    exact readBit_congr _ _ _ (CE (p / 8) (by omega))
  refine ⟨rfl, CL, ?_, ?_, CU, ?_⟩
  · intro j hj
    rw [hread (off + j) (by omega)]
    exact WR j hj
  · intro p hp
    rw [hread p (by omega)]
    rw [WU p (by omega) (Or.inl hp)]
    exact readBit_replicate_zero p
  · intro k hk
    rw [CE k hk]
    apply WB
    show getByte (List.replicate 8 0) k < 256
    rw [getByte_replicate_zero]
    omega

/-- Two length-8 buffers with the same bytes are equal. -/
theorem list_eq_of_getByte (x y : List Nat) (hx : x.length = 8) (hy : y.length = 8)
    (h : ∀ k, k < 8 → getByte x k = getByte y k) : x = y := by
  apply List.ext_getElem (by omega)
  intro i h1 h2
  have hh := h i (by omega)
  unfold getByte at hh
  rw [List.getD_eq_getElem?_getD, List.getD_eq_getElem?_getD,
    List.getElem?_eq_getElem h1, List.getElem?_eq_getElem h2] at hh
  simpa using hh

/-- Two valid bytes agreeing on the 8 buffer bits of their byte index are
equal. -/
theorem byte_eq_of_readBit (x y : List Nat) (k : Nat)
    (hxb : getByte x k < 256) (hyb : getByte y k < 256)
    (h : ∀ r, r < 8 → readBit x (8 * k + r) = readBit y (8 * k + r)) :
    getByte x k = getByte y k := by
  apply Nat.eq_of_testBit_eq
  intro i
  rcases Nat.lt_or_ge i 8 with hi | hi
  · have hr := h (7 - i) (by omega)
    rw [readBit_eq_testBit, readBit_eq_testBit] at hr
    have hdiv : (8 * k + (7 - i)) / 8 = k := by omega
    have hmod : 7 - (8 * k + (7 - i)) % 8 = i := by omega
    rw [hdiv, hmod] at hr
    exact hr
  · have hx2 : getByte x k < 2 ^ i :=
      lt_of_lt_of_le hxb (le_trans (by norm_num) (Nat.pow_le_pow_right (by omega) hi))
    have hy2 : getByte y k < 2 ^ i :=
      lt_of_lt_of_le hyb (le_trans (by norm_num) (Nat.pow_le_pow_right (by omega) hi))
    rw [Nat.testBit_lt_two_pow hx2, Nat.testBit_lt_two_pow hy2]

set_option maxRecDepth 8000 in
/-- The 8-bit check of the C code
(`data[0] == (value | ((0xF & ~value) << 4))` with `value = data[0] & 0xF`)
holds exactly when the upper nibble is the bitwise complement of the lower
nibble, for every byte. -/
theorem nibble_check_equiv : ∀ b < 256,
    (b = (b &&& 15) ||| ((15 ^^^ (b &&& 15)) <<< 4) ↔ b >>> 4 = 15 ^^^ (b &&& 15)) := by
  decide

/-- C1: for an error-free completed frame of 26 or 34 bits with a matching
fixed `expectedBits` (or the auto sentinel) and decoding enabled,
`flushData` XOR-folds bits `[0, ceil(n/2))` (left half, `(n+1)/2 = ⌈n/2⌉`)
and bits `[floor(n/2), n)` (right half); if the left fold is even (false)
and the right fold odd (true) it dispatches exactly one success callback
whose payload is exactly the bits `[1, n-1)` — `n - 2` bits, first and
last stripped, right-aligned (offset 0 since `n - 2` is a byte multiple);
otherwise it dispatches exactly one `VerificationFailed` error carrying
the raw right-aligned `n`-bit buffer (padding offset 6, padding bits
zero). -/
theorem flushData_parity_frame_26_34 (s : WiegandState)
    (hb : s.bits = 26 ∨ s.bits = 34) (hlen : s.data.length = 8)
    (herr : s.state &&& MASK_ERRORS = 0)
    (hexp : s.expected_bits = s.bits ∨ s.expected_bits = LENGTH_ANY)
    (hdec : s.decode_messages = true)
    (hfd : s.has_func_data = true) (hfe : s.has_func_data_error = true) :
    (specXorFold s.data 0 ((s.bits + 1) / 2) = false ∧
        specXorFold s.data (s.bits / 2) s.bits = true →
      (flushData s).2 = [Event.data (align_data s.data 1 (s.bits - 1)).1 (s.bits - 2)] ∧
      ∀ j, j < s.bits - 2 →
        readBit (align_data s.data 1 (s.bits - 1)).1 j = readBit s.data (1 + j)) ∧
    (¬ (specXorFold s.data 0 ((s.bits + 1) / 2) = false ∧
        specXorFold s.data (s.bits / 2) s.bits = true) →
      (flushData s).2 =
        [Event.error DataError.VerificationFailed (align_data s.data 0 s.bits).1 s.bits] ∧
      (∀ j, j < s.bits →
        readBit (align_data s.data 0 s.bits).1 (6 + j) = readBit s.data j) ∧
      (∀ j, j < 6 → readBit (align_data s.data 0 s.bits).1 j = false)) := by
  have hexp0 : s.expected_bits ≠ 0 := by
    rcases hexp with h | h
    · rcases hb with hb | hb <;> rw [h, hb] <;> decide
    · rw [h]; decide
  unfold flushData
  rw [if_neg (by rcases hb with h | h <;> simp [h, hexp0])]
  rw [if_neg (by simp [herr])]
  rw [if_neg (by
    rintro ⟨hn1, hn2⟩
    rcases hexp with h | h
    · exact hn1 h
    · exact hn2 h)]
  rw [if_neg (by simp [hdec])]
  unfold flushDataDecode
  rw [if_neg (by rcases hb with h | h <;> simp [h])]
  rw [if_neg (by rcases hb with h | h <;> simp [h])]
  rw [if_pos hb]
  dsimp only
  rw [show (List.range ((s.bits + 1) / 2)).foldl (fun p i => xor p (readBit s.data i)) false =
      specXorFold s.data 0 ((s.bits + 1) / 2) from by
    unfold specXorFold
    rw [List.range_eq_range']
    simp]
  rw [show (List.range' (s.bits / 2) (s.bits - s.bits / 2)).foldl
      (fun p i => xor p (readBit s.data i)) false =
      specXorFold s.data (s.bits / 2) s.bits from rfl]
  constructor
  · intro hcond
    rw [if_pos hcond]
    unfold dispatchData
    rw [if_pos hfd]
    dsimp only
    obtain ⟨A1, A2, A3, A4, A5, A6⟩ :=
      align_data_spec s.data 1 (s.bits - 1) hlen (by omega)
        (by rcases hb with h | h <;> omega)
    constructor
    · have h1 : (align_data s.data 1 (s.bits - 1)).2 = s.bits - 2 := by
        rw [A1]; omega
      rw [h1]
    · intro j hj
      have hoff : 8 * ((s.bits - 1 - 1 + 7) / 8) - (s.bits - 1 - 1) = 0 := by
        rcases hb with h | h <;> rw [h] <;> decide
      have := A3 j (by omega)
      rw [hoff] at this
      simpa using this
  · intro hcond
    rw [if_neg hcond]
    unfold dispatchError
    rw [if_pos hfe]
    dsimp only
    obtain ⟨A1, A2, A3, A4, A5, A6⟩ :=
      align_data_spec s.data 0 s.bits hlen (by omega)
        (by rcases hb with h | h <;> omega)
    have hoff : 8 * ((s.bits - 0 + 7) / 8) - (s.bits - 0) = 6 := by
      rcases hb with h | h <;> rw [h] <;> decide
    refine ⟨?_, ?_, ?_⟩
    · have h1 : (align_data s.data 0 s.bits).2 = s.bits := by rw [A1]; omega
      rw [h1]
    · intro j hj
      have := A3 j (by omega)
      rw [hoff] at this
      simpa using this
    · intro j hj
      exact A4 j (by rw [hoff]; omega)

/-- C1 witness: the concrete valid-parity 26-bit frame `sParity26` (left
half all zero, right half with exactly the trailing parity bit set)
dispatches the 24-bit stripped payload, and the theorem's instantiation at
it holds with all hypotheses discharged concretely. -/
theorem flushData_parity_frame_26_34_witness :
    (specXorFold sParity26.data 0 ((sParity26.bits + 1) / 2) = false ∧
      specXorFold sParity26.data (sParity26.bits / 2) sParity26.bits = true) ∧
    (flushData sParity26).2 = [Event.data [0, 0, 0, 64, 0, 0, 0, 0] 24] ∧
    ((specXorFold sParity26.data 0 ((sParity26.bits + 1) / 2) = false ∧
        specXorFold sParity26.data (sParity26.bits / 2) sParity26.bits = true →
      (flushData sParity26).2 =
        [Event.data (align_data sParity26.data 1 (sParity26.bits - 1)).1 (sParity26.bits - 2)] ∧
      ∀ j, j < sParity26.bits - 2 →
        readBit (align_data sParity26.data 1 (sParity26.bits - 1)).1 j =
          readBit sParity26.data (1 + j)) ∧
    (¬ (specXorFold sParity26.data 0 ((sParity26.bits + 1) / 2) = false ∧
        specXorFold sParity26.data (sParity26.bits / 2) sParity26.bits = true) →
      (flushData sParity26).2 =
        [Event.error DataError.VerificationFailed
          (align_data sParity26.data 0 sParity26.bits).1 sParity26.bits] ∧
      (∀ j, j < sParity26.bits →
        readBit (align_data sParity26.data 0 sParity26.bits).1 (6 + j) =
          readBit sParity26.data j) ∧
      (∀ j, j < 6 → readBit (align_data sParity26.data 0 sParity26.bits).1 j = false))) :=
  ⟨by decide, by decide,
    flushData_parity_frame_26_34 sParity26 (Or.inl (by decide)) (by decide) (by decide)
      (Or.inl (by decide)) (by decide) (by decide) (by decide)⟩

/-- C6: for an error-free completed 8-bit frame with a matching expected
length and decoding enabled: when the upper nibble of the byte is the
bitwise complement of the lower nibble, the success callback receives
exactly the lower nibble as a 4-bit payload; otherwise the error callback
receives `VerificationFailed` with the raw right-aligned 8-bit buffer
(whose 8 bits equal the original frame bits). -/
theorem flushData_nibble_frame_8 (s : WiegandState)
    (hb : s.bits = 8) (hlen : s.data.length = 8) (h0 : getByte s.data 0 < 256)
    (herr : s.state &&& MASK_ERRORS = 0)
    (hexp : s.expected_bits = 8 ∨ s.expected_bits = LENGTH_ANY)
    (hdec : s.decode_messages = true)
    (hfd : s.has_func_data = true) (hfe : s.has_func_data_error = true) :
    (getByte s.data 0 >>> 4 = 15 ^^^ (getByte s.data 0 &&& 15) →
      (flushData s).2 = [Event.data [getByte s.data 0 &&& 15] 4]) ∧
    (¬ getByte s.data 0 >>> 4 = 15 ^^^ (getByte s.data 0 &&& 15) →
      (flushData s).2 =
        [Event.error DataError.VerificationFailed (align_data s.data 0 s.bits).1 8] ∧
      ∀ j, j < 8 → readBit (align_data s.data 0 s.bits).1 j = readBit s.data j) := by
  have hexp0 : s.expected_bits ≠ 0 := by
    rcases hexp with h | h <;> rw [h] <;> decide
  unfold flushData
  rw [if_neg (by simp [hb, hexp0])]
  rw [if_neg (by simp [herr])]
  rw [if_neg (by
    rintro ⟨hn1, hn2⟩
    rcases hexp with h | h
    · exact hn1 (by rw [h, hb])
    · exact hn2 h)]
  rw [if_neg (by simp [hdec])]
  unfold flushDataDecode
  rw [if_neg (by simp [hb])]
  rw [if_pos hb]
  dsimp only
  constructor
  · intro hcond
    rw [if_pos ((nibble_check_equiv _ h0).2 hcond)]
    rw [if_pos hfd]
  · intro hcond
    rw [if_neg (fun hc => hcond ((nibble_check_equiv _ h0).1 hc))]
    unfold dispatchError
    rw [if_pos hfe]
    dsimp only
    obtain ⟨A1, A2, A3, A4, A5, A6⟩ :=
      align_data_spec s.data 0 s.bits hlen (by omega) (by omega)
    constructor
    · rw [hb] at A1 ⊢
      have h1 : (align_data s.data 0 8).2 = 8 := by rw [A1]
      rw [h1]
    · intro j hj
      rw [hb] at A3 ⊢
      have := A3 j (by omega)
      simpa using this

/-- C6 witness: the concrete frame `0xA5` (upper nibble 1010, lower nibble
0101) passes the complement check and delivers the lower nibble as a 4-bit
payload; the instantiation of the theorem at `sNibble` holds with all
hypotheses discharged concretely. -/
theorem flushData_nibble_frame_8_witness :
    getByte sNibble.data 0 >>> 4 = 15 ^^^ (getByte sNibble.data 0 &&& 15) ∧
    (flushData sNibble).2 = [Event.data [5] 4] ∧
    ((getByte sNibble.data 0 >>> 4 = 15 ^^^ (getByte sNibble.data 0 &&& 15) →
      (flushData sNibble).2 = [Event.data [getByte sNibble.data 0 &&& 15] 4]) ∧
    (¬ getByte sNibble.data 0 >>> 4 = 15 ^^^ (getByte sNibble.data 0 &&& 15) →
      (flushData sNibble).2 =
        [Event.error DataError.VerificationFailed
          (align_data sNibble.data 0 sNibble.bits).1 8] ∧
      ∀ j, j < 8 →
        readBit (align_data sNibble.data 0 sNibble.bits).1 j = readBit sNibble.data j)) :=
  ⟨by decide, by decide,
    flushData_nibble_frame_8 sNibble (by decide) (by decide) (by decide) (by decide)
      (Or.inl (by decide)) (by decide) (by decide) (by decide)⟩

/-- C9 counterexample: right-alignment is not idempotent in general.  For
the buffer `0xF0…` and `n = 4`, the first alignment yields byte `0x0F`,
and re-applying the alignment of `[0, 4)` reads the (now zero) top nibble
and produces the all-zero buffer — a different buffer, though with the
same bit count. -/
theorem align_data_not_idempotent_cex :
    align_data (align_data bufNibbleHigh 0 4).1 0 4 ≠ align_data bufNibbleHigh 0 4 ∧
    (align_data bufNibbleHigh 0 4).1 = [15, 0, 0, 0, 0, 0, 0, 0] ∧
    (align_data (align_data bufNibbleHigh 0 4).1 0 4).1 = [0, 0, 0, 0, 0, 0, 0, 0] ∧
    (align_data (align_data bufNibbleHigh 0 4).1 0 4).2 = (align_data bufNibbleHigh 0 4).2 := by
  refine ⟨by decide, by decide, by decide, by decide⟩

/-- C9 (amended): right-alignment of `[0, n)` is idempotent exactly in the
padding-free case — whenever `n` is a multiple of 8 (so the alignment
offset is zero), re-applying `align_data` to an already aligned buffer
returns the identical buffer and the same bit count `n`.  (For other `n`
the operation shifts the content again, as the counterexample shows.) -/
theorem align_data_idempotent_of_byte_aligned (d : List Nat) (n : Nat)
    (hd : d.length = 8) (hn : n ≤ 64) (h8 : n % 8 = 0) :
    align_data (align_data d 0 n).1 0 n = align_data d 0 n ∧
    (align_data d 0 n).2 = n := by
  obtain ⟨A1, A2, A3, A4, A5, A6⟩ := align_data_spec d 0 n hd (by omega) (by omega)
  obtain ⟨B1, B2, B3, B4, B5, B6⟩ :=
    align_data_spec (align_data d 0 n).1 0 n A2 (by omega) (by omega)
  have hoff : 8 * ((n - 0 + 7) / 8) - (n - 0) = 0 := by omega
  have hfst : (align_data (align_data d 0 n).1 0 n).1 = (align_data d 0 n).1 := by
    apply list_eq_of_getByte _ _ B2 A2
    intro k hk
    rcases Nat.lt_or_ge k (n / 8) with hkb | hkb
    · apply byte_eq_of_readBit _ _ _ (B6 k (by omega)) (A6 k (by omega))
      intro r hr
      have hB := B3 (8 * k + r) (by omega)
      rw [hoff] at hB
      simpa using hB
    · have := B5 k (by omega)
      rw [this]
  have hsnd : (align_data (align_data d 0 n).1 0 n).2 = (align_data d 0 n).2 := by
    rw [A1, B1]
  exact ⟨Prod.ext hfst hsnd, by rw [A1]; omega⟩

/-- C9 (amended) witness: a concrete 16-bit (two whole bytes) range is
aligned idempotently. -/
theorem align_data_idempotent_of_byte_aligned_witness :
    align_data (align_data [1, 2, 3, 4, 5, 6, 7, 8] 0 16).1 0 16 =
      align_data [1, 2, 3, 4, 5, 6, 7, 8] 0 16 ∧
    (align_data [1, 2, 3, 4, 5, 6, 7, 8] 0 16).2 = 16 :=
  align_data_idempotent_of_byte_aligned [1, 2, 3, 4, 5, 6, 7, 8] 16
    (by decide) (by decide) (by decide)
